import Mathlib

/-!
# Verification of the Section-18 metrology procedure engine

A shallow embedding, in Lean 4, of the verification-procedure engine of the
`metrology-scripts` repository: the limit tables and the "closest value"
limit-shift algorithm (`procedures/tables_section18.py`), the statistics and
interval helpers (`procedures/common.py`), the sampling helper and the six
`verify_*` procedures (`procedures/section18.py`), the best-effort shutdown
(`procedures/safety.py`) and the top-level runner (`run_verification.py`).

Modelling conventions:
* Python floats are modelled as exact rationals (`ℚ`); `float("nan")` values
  stored in optional result fields are modelled as `Option.none`.
* Instrument traffic is modelled by an explicit event trace: every driver
  call made by a procedure appends an `Event`.  Readings returned by the
  instruments are supplied by an environment `Env` of read streams (the k-th
  call of a given read channel returns the k-th stream element).
* A Python function that can raise is modelled with an `Option Err` outcome
  (`none` = normal return).  A name-resolution error (`NameError` /
  `UnboundLocalError`) is a value of `Err`.
* `math.sqrt` is modelled by `Real.sqrt`; since the square root of a rational
  is not rational, the standard deviation `stdev` returns a real number, and
  the (claim-irrelevant) `*_stdev` fields of a result record store the exact
  square `stdevSq` of the reported value instead.
-/

set_option autoImplicit false

namespace Metrology

/-! ## `procedures/common.py`: mean, stdev, within -/

/-- Python function `common.mean`: arithmetic mean, `sum(xs) / len(xs)`.
The source returns `NaN` for an empty list; in the rational model the empty
case falls back to Lean's `0/0 = 0` junk value (no claim touches it, and every
call site passes a non-empty series when `samples_per_point ≥ 1`). -/
def mean (xs : List ℚ) : ℚ :=
  xs.sum / (xs.length : ℚ)

/-- The radicand of `common.stdev`: `sum((x - m) ** 2 for x in xs) / (len(xs) - 1)`,
with the source's early return `0.0` for fewer than 2 samples. -/
def stdevSq (xs : List ℚ) : ℚ :=
  if xs.length < 2 then 0
  else ((xs.map (fun x => (x - mean xs) ^ 2)).sum) / ((xs.length : ℚ) - 1)

/-- Python function `common.stdev`: sample standard deviation (N-1).
`if len(xs) < 2: return 0.0` and otherwise `math.sqrt` of `stdevSq`. -/
noncomputable def stdev (xs : List ℚ) : ℝ :=
  if xs.length < 2 then 0 else Real.sqrt (stdevSq xs)

/-- Python function `common.within`: `(x >= lo) and (x <= hi)`. -/
def within (x lo hi : ℚ) : Bool :=
  decide (x ≥ lo) && decide (x ≤ hi)

/-! ## `procedures/tables_section18.py`: rows and the limit-shift function -/

/-- Python dataclass `tables_section18.LimitRow` (frozen dataclass). -/
structure LimitRow where
  range_name : String
  set_value : ℚ
  low : ℚ
  high : ℚ
  unit : String
deriving DecidableEq, Repr

/-- Python function `tables_section18.shift_limits`: the "closest value" recomputation.
`d_lo = nominal - low; d_hi = high - nominal; return actual - d_lo, actual + d_hi`. -/
def shift_limits (nominal low high actual : ℚ) : ℚ × ℚ :=
  let d_lo := nominal - low
  let d_hi := high - nominal
  (actual - d_lo, actual + d_hi)

/-- Table constant `TABLE_18_3_MAINFRAME_OUT_V`. -/
def TABLE_18_3_MAINFRAME_OUT_V : List LimitRow :=
  [ ⟨"200mV", 0.200000, 0.199360, 0.200640, "V"⟩,
    ⟨"2V",    2.00000,  1.99900,  2.00100,  "V"⟩,
    ⟨"20V",   20.0000,  19.9936,  20.0064,  "V"⟩,
    ⟨"200V",  200.000,  199.936,  200.064,  "V"⟩ ]

/-- Table constant `TABLE_18_4_MAINFRAME_MEAS_V`. -/
def TABLE_18_4_MAINFRAME_MEAS_V : List LimitRow :=
  [ ⟨"200mV", 0.200000, 0.199626, 0.200374, "V"⟩,
    ⟨"2V",    2.00000,  1.99941,  2.00059,  "V"⟩,
    ⟨"20V",   20.0000,  19.9955,  20.0045,  "V"⟩,
    ⟨"200V",  200.000,  199.960,  200.040,  "V"⟩ ]

/-- Table constant `TABLE_18_5_MAINFRAME_OUT_I`. -/
def TABLE_18_5_MAINFRAME_OUT_I : List LimitRow :=
  [ ⟨"1uA",   1.00000e-6, 0.99905e-6, 1.00095e-6, "A"⟩,
    ⟨"10uA",  10.0000e-6, 9.9947e-6,  10.0053e-6, "A"⟩,
    ⟨"100uA", 100.000e-6, 99.949e-6,  100.051e-6, "A"⟩,
    ⟨"1mA",   1.00000e-3, 0.99946e-3, 1.00054e-3, "A"⟩,
    ⟨"10mA",  10.0000e-3, 9.9935e-3,  10.0065e-3, "A"⟩,
    ⟨"100mA", 0.100000,   0.099914,   0.100086,   "A"⟩ ]

/-- Table constant `TABLE_18_6_MAINFRAME_MEAS_I`. -/
def TABLE_18_6_MAINFRAME_MEAS_I : List LimitRow :=
  [ ⟨"1uA",   1.000000e-6, 0.99920e-6, 1.00080e-6, "A"⟩,
    ⟨"10uA",  10.00000e-6, 9.9930e-6,  10.0070e-6, "A"⟩,
    ⟨"100uA", 100.000e-6,  99.969e-6,  100.031e-6, "A"⟩,
    ⟨"1mA",   1.00000e-3,  0.99967e-3, 1.00033e-3, "A"⟩,
    ⟨"10mA",  10.0000e-3,  9.9959e-3,  10.0041e-3, "A"⟩,
    ⟨"100mA", 0.100000,    0.099939,   0.100061,   "A"⟩ ]

/-- A row of the low-current tables 18-11 / 18-13, which the source stores as
a tuple `(range, standard resistor, setpoint, low limit, high limit)`. -/
structure LowRow where
  rng : String
  R_nom : ℚ
  I_nom : ℚ
  lo_nom : ℚ
  hi_nom : ℚ
deriving DecidableEq, Repr

/-- Table constant `TABLE_18_11_PREAMP_OUT_I_LOW`. -/
def TABLE_18_11_PREAMP_OUT_I_LOW : List LowRow :=
  [ ⟨"1pA",   100e9,  1.00000e-12, 0.97950e-12, 1.02050e-12⟩,
    ⟨"10pA",  100e9,  10.0000e-12, 9.9150e-12,  10.0085e-12⟩,
    ⟨"100pA", 10e9,   100.000e-12, 99.770e-12,  100.230e-12⟩,
    ⟨"1nA",   1e9,    1.00000e-9,  0.99900e-9,  1.00100e-9⟩,
    ⟨"10nA",  1e9,    10.0000e-9,  9.9990e-9,   10.0100e-9⟩,
    ⟨"100nA", 100e6,  100.000e-9,  99.910e-9,   100.090e-9⟩ ]

/-- Table constant `TABLE_18_13_PREAMP_MEAS_I_LOW`. -/
def TABLE_18_13_PREAMP_MEAS_I_LOW : List LowRow :=
  [ ⟨"1pA",   100e9,  1.000000e-12, 0.98300e-12, 1.01700e-12⟩,
    ⟨"10pA",  100e9,  10.00000e-12, 9.9430e-12,  10.0570e-12⟩,
    ⟨"100pA", 10e9,   100.000e-12,  99.820e-12,  100.180e-12⟩,
    ⟨"1nA",   1e9,    1.00000e-9,   0.99930e-9,  1.00070e-9⟩,
    ⟨"10nA",  1e9,    10.0000e-9,   9.9930e-9,   10.0070e-9⟩,
    ⟨"100nA", 100e6,  100.000e-9,   99.930e-9,   100.070e-9⟩ ]

/-! ## `procedures/section18.py`: configuration, sampling, procedures

Instrument traffic is recorded as an event trace.  Readings are supplied by
an environment of read streams: the k-th call of a channel returns element k.
-/

/-- Python dataclass `section18.ProcCfg` (defaults as in the source). -/
structure ProcCfg where
  settle_s : ℚ := 1.0
  nplc_3458 : ℚ := 10
  samples_per_point : ℕ := 5
  sample_delay_s : ℚ := 0.2
  use_5720a_as_voltage_source : Bool := false
deriving DecidableEq, Repr

/-- The read streams feeding a procedure: `dmm` models successive results of
`dmm.read()`, `dut` of `k.read()`, and `iq` of `k.source_i_query()` — a `none`
entry models that query raising (caught by the source's `try/except`). -/
structure Env where
  dmm : ℕ → ℚ
  dut : ℕ → ℚ
  iq : ℕ → Option ℚ

/-- The two unbound-name faults the procedures can raise. -/
inductive Err
  | unboundLocalRow
  | nameErrorRKey
deriving DecidableEq, Repr

/-- One step of `section18._sample_readings`: a reading or an inter-sample
sleep, in program order. -/
inductive SampleEv
  | read (v : ℚ)
  | sleep (d : ℚ)
deriving DecidableEq, Repr

/-- Python function `section18._sample_readings(read_fn, n, delay_s)`:
`for _ in range(n): xs.append(float(read_fn())); time.sleep(delay_s)`.
Returns the collected readings and the trace of reads and sleeps performed;
the k-th call of `read_fn` yields `read_fn k`. -/
def _sample_readings (read_fn : ℕ → ℚ) (n : ℕ) (delay_s : ℚ) :
    List ℚ × List SampleEv :=
  match n with
  | 0 => ([], [])
  | m + 1 =>
    let v := read_fn 0
    let rest := _sample_readings (fun i => read_fn (i + 1)) m delay_s
    (v :: rest.1, SampleEv.read v :: SampleEv.sleep delay_s :: rest.2)

/-- The sampling trace as the spec describes it (§4.2): `delay` waits only
*between* successive invocations — none before the first read and none after
the final one.  Stated from the spec's words, to be compared with the trace
the source produces. -/
def sampleSpecTrace (read_fn : ℕ → ℚ) (n : ℕ) (delay_s : ℚ) : List SampleEv :=
  match n with
  | 0 => []
  | m + 1 =>
    SampleEv.read (read_fn 0) ::
      List.flatten ((List.range m).map
        (fun i => [SampleEv.sleep delay_s, SampleEv.read (read_fn (i + 1))]))

/-- Every driver call a procedure or the shutdown path makes, in order. -/
inductive Event
  | prompt
  | outputOn
  | outputOff
  | configDCV (expected nplc : ℚ)
  | configDCI (expected nplc : ℚ)
  | sourceV (value rng : ℚ)
  | sourceI (value rng : ℚ)
  | senseFunc (f : String)
  | settle (s : ℚ)
  | dmmRead (v : ℚ)
  | dutRead (v : ℚ)
  | sampleSleep (d : ℚ)
  | sourceIQuery (result : Option ℚ)
  | srcOperate
  | srcStandby
  | srcOutDCV (v : ℚ)
  | shutdownStart
  | closeInst (name : String)
  | shutdownDone
deriving DecidableEq, Repr

/-- Tag a sampling trace as traffic on the reference meter (3458A). -/
def dmmEvents (sev : List SampleEv) : List Event :=
  sev.map fun e =>
    match e with
    | SampleEv.read v => Event.dmmRead v
    | SampleEv.sleep d => Event.sampleSleep d

/-- Tag a sampling trace as traffic on the DUT (6430). -/
def dutEvents (sev : List SampleEv) : List Event :=
  sev.map fun e =>
    match e with
    | SampleEv.read v => Event.dutRead v
    | SampleEv.sleep d => Event.sampleSleep d

/-- Python dataclass `common.PointResult`.  `float("nan")` / `None` fields are `none`; a
`*_stdev` field stores `stdevSq` of the series (the exact square of the
standard deviation the source stores, which is not rational). -/
structure PointResult where
  test : String
  range_name : String
  set_value : ℚ
  actual_set : ℚ
  dmm_mean : Option ℚ
  dmm_stdev : Option ℚ
  dut_mean : Option ℚ
  dut_stdev : Option ℚ
  low : ℚ
  high : ℚ
  unit : String
  pass_fail : String
  r_key : Option String := none
  r_nom_ohm : Option ℚ := none
  r_act_ohm : Option ℚ := none
deriving DecidableEq, Repr

/-- Outcome of one `verify_*` procedure: the driver-call trace, the
accumulated `PointResult` list, and the fault it raised, if any. -/
structure ProcOut where
  events : List Event
  results : List PointResult
  err : Option Err
deriving DecidableEq, Repr

/-- One row of `verify_mainframe_output_voltage` (Table 18-3 loop body):
configure the meter, source the nominal (range `1.2×` below 200, else 200),
settle, sample the meter, shift the limits around the sampled mean and
compare that mean against them. -/
def mfOutVRow (env : Env) (cfg : ProcCfg) (row : LimitRow) (di : ℕ) :
    List Event × PointResult :=
  let rng := if row.set_value < 200 then row.set_value * 1.2 else 200
  let s := _sample_readings (fun i => env.dmm (di + i))
    cfg.samples_per_point cfg.sample_delay_s
  let actual := mean s.1
  let lh := shift_limits row.set_value row.low row.high actual
  let passfail := if within actual lh.1 lh.2 then (r"PASS") else (r"FAIL")
  ( Event.configDCV row.set_value cfg.nplc_3458 ::
      Event.sourceV row.set_value rng ::
      Event.settle cfg.settle_s :: dmmEvents s.2,
    { test := (r"MF_OUT_V"), range_name := row.range_name,
      set_value := row.set_value, actual_set := actual,
      dmm_mean := some actual, dmm_stdev := some (stdevSq s.1),
      dut_mean := none, dut_stdev := none,
      low := lh.1, high := lh.2, unit := row.unit, pass_fail := passfail } )

/-- The Table 18-3 loop, threading the meter read stream. -/
def mfOutVLoop (env : Env) (cfg : ProcCfg) :
    List LimitRow → ℕ → List Event × List PointResult
  | [], _ => ([], [])
  | row :: rows, di =>
    let r := mfOutVRow env cfg row di
    let rest := mfOutVLoop env cfg rows (di + cfg.samples_per_point)
    (r.1 ++ rest.1, r.2 :: rest.2)

/-- Procedure `verify_mainframe_output_voltage`, generalized over the table rows:
prompt, output on, the row loop, output off, normal return. -/
def mfOutVProc (rows : List LimitRow) (env : Env) (cfg : ProcCfg) : ProcOut :=
  let l := mfOutVLoop env cfg rows 0
  { events := Event.prompt :: Event.outputOn :: (l.1 ++ [Event.outputOff]),
    results := l.2, err := none }

/-- Procedure `verify_mainframe_output_voltage` over its fixed table. -/
def verify_mainframe_output_voltage (env : Env) (cfg : ProcCfg) : ProcOut :=
  mfOutVProc TABLE_18_3_MAINFRAME_OUT_V env cfg

/-- One row of `verify_mainframe_measure_voltage` (Table 18-4 loop body).
`useSrc` is the value of `cfg.use_5720a_as_voltage_source and src is not None`;
both branches sample the meter, then the DUT, shift the limits around the
meter mean and compare the DUT mean against them. -/
def mfMeasVRow (env : Env) (cfg : ProcCfg) (useSrc : Bool) (row : LimitRow)
    (di dui : ℕ) : List Event × PointResult :=
  let s := _sample_readings (fun i => env.dmm (di + i))
    cfg.samples_per_point cfg.sample_delay_s
  let actual := mean s.1
  let d := _sample_readings (fun i => env.dut (dui + i))
    cfg.samples_per_point cfg.sample_delay_s
  let dut_m := mean d.1
  let lh := shift_limits row.set_value row.low row.high actual
  let passfail := if within dut_m lh.1 lh.2 then (r"PASS") else (r"FAIL")
  let evs :=
    if useSrc then
      Event.srcOutDCV row.set_value :: Event.settle cfg.settle_s ::
        (dmmEvents s.2 ++ Event.senseFunc (r"VOLT") :: dutEvents d.2)
    else
      Event.sourceV row.set_value
          (if row.set_value < 200 then row.set_value * 1.2 else 200) ::
        Event.senseFunc (r"VOLT") :: Event.settle cfg.settle_s ::
        (dmmEvents s.2 ++ dutEvents d.2)
  ( evs,
    { test := (r"MF_MEAS_V"), range_name := row.range_name,
      set_value := row.set_value, actual_set := actual,
      dmm_mean := some actual, dmm_stdev := some (stdevSq s.1),
      dut_mean := some dut_m, dut_stdev := some (stdevSq d.1),
      low := lh.1, high := lh.2, unit := row.unit, pass_fail := passfail } )

/-- The Table 18-4 loop, threading both read streams. -/
def mfMeasVLoop (env : Env) (cfg : ProcCfg) (useSrc : Bool) :
    List LimitRow → ℕ → ℕ → List Event × List PointResult
  | [], _, _ => ([], [])
  | row :: rows, di, dui =>
    let r := mfMeasVRow env cfg useSrc row di dui
    let rest := mfMeasVLoop env cfg useSrc rows
      (di + cfg.samples_per_point) (dui + cfg.samples_per_point)
    (r.1 ++ rest.1, r.2 :: rest.2)

/-- Procedure `verify_mainframe_measure_voltage`, generalized over the table rows.
When the external 5720A source is in use it is placed in operate before the
loop and returned to standby after it; the DUT output is then disabled. -/
def mfMeasVProc (rows : List LimitRow) (env : Env) (cfg : ProcCfg)
    (hasSrc : Bool) : ProcOut :=
  let useSrc := cfg.use_5720a_as_voltage_source && hasSrc
  let l := mfMeasVLoop env cfg useSrc rows 0 0
  { events := Event.prompt :: Event.outputOn ::
      ((if useSrc then [Event.srcOperate] else []) ++ l.1 ++
        (if useSrc then [Event.srcStandby] else []) ++ [Event.outputOff]),
    results := l.2, err := none }

/-- Procedure `verify_mainframe_measure_voltage` over its fixed table. -/
def verify_mainframe_measure_voltage (env : Env) (cfg : ProcCfg)
    (hasSrc : Bool) : ProcOut :=
  mfMeasVProc TABLE_18_4_MAINFRAME_MEAS_V env cfg hasSrc

/-- Procedure `verify_mainframe_output_current` (Table 18-5).  After the prompt, the
statement `dmm.config_dci(row.set_value, cfg.nplc_3458)` references the loop
variable `row` before the `for` loop has bound it, so Python raises
`UnboundLocalError` there — for any table, before `k.output(True)` and before
any row runs. -/
def verify_mainframe_output_current (_env : Env) (_cfg : ProcCfg) : ProcOut :=
  { events := [Event.prompt], results := [], err := some Err.unboundLocalRow }

/-- Procedure `verify_mainframe_measure_current` (Table 18-6).  Identical slip:
`dmm.config_dci(row.set_value, cfg.nplc_3458)` precedes the loop that would
bind `row`, so `UnboundLocalError` is raised after the prompt. -/
def verify_mainframe_measure_current (_env : Env) (_cfg : ProcCfg) : ProcOut :=
  { events := [Event.prompt], results := [], err := some Err.unboundLocalRow }

/-- Modelled from the spec: the helper `_r_key_from_nominal`, called by both
low-current procedures (`section18.py` lines 218 and 260), is defined nowhere
in the repository sources.  Per spec §6, the resistor identifier is a string
key derived from the nominal resistance magnitude, one of "100M", "1G",
"10G", "100G". -/
def _r_key_from_nominal (rNom : ℚ) : String :=
  if rNom = 100e6 then (r"100M")
  else if rNom = 1e9 then (r"1G")
  else if rNom = 10e9 then (r"10G")
  else if rNom = 100e9 then (r"100G")
  else (r"")

/-- One row of `verify_remote_preamp_low_current_output` (Table 18-11 loop
body), as the source writes it below the `_r_key_from_nominal` call: source
the *nominal* current (range `abs(I_nom)*1.2`), settle, sample the voltage
across the resistor, derive `I_calc = V/R`, read back the setpoint (falling
back to the nominal if the query raises), shift the nominal limits around the
setpoint, and compare `I_calc` against them. -/
def paLowOutRow (env : Env) (cfg : ProcCfg) (rmap : String → Option ℚ)
    (row : LowRow) (di qi : ℕ) : List Event × PointResult :=
  let key := _r_key_from_nominal row.R_nom
  let R := (rmap key).getD row.R_nom
  let s := _sample_readings (fun i => env.dmm (di + i))
    cfg.samples_per_point cfg.sample_delay_s
  let V := mean s.1
  let I_calc := V / R
  let I_set := (env.iq qi).getD row.I_nom
  let lh := shift_limits row.I_nom row.lo_nom row.hi_nom I_set
  let passfail := if within I_calc lh.1 lh.2 then (r"PASS") else (r"FAIL")
  ( Event.prompt :: Event.sourceI row.I_nom (|row.I_nom| * 1.2) ::
      Event.settle cfg.settle_s ::
      (dmmEvents s.2 ++ [Event.sourceIQuery (env.iq qi)]),
    { test := (r"PA_OUT_I_LOW"), range_name := row.rng,
      set_value := row.I_nom, actual_set := I_set,
      dmm_mean := some I_calc, dmm_stdev := some 0,
      dut_mean := none, dut_stdev := none,
      low := lh.1, high := lh.2, unit := (r"A"), pass_fail := passfail,
      r_key := some key, r_nom_ohm := some row.R_nom, r_act_ohm := some R } )

/-- One row of `verify_remote_preamp_low_current_measurement` (Table 18-13
loop body), as the source writes it below the `_r_key_from_nominal` call:
sample the voltage, derive `I_calc = V/R`, source the *derived* current
(range `abs(I_calc)*1.2`), settle, read back the setpoint (falling back to
`I_calc` if the query raises), shift the nominal limits around the setpoint,
sample the DUT's own current measurement and compare its mean against them. -/
def paLowMeasRow (env : Env) (cfg : ProcCfg) (rmap : String → Option ℚ)
    (row : LowRow) (di dui qi : ℕ) : List Event × PointResult :=
  let key := _r_key_from_nominal row.R_nom
  let R := (rmap key).getD row.R_nom
  let s := _sample_readings (fun i => env.dmm (di + i))
    cfg.samples_per_point cfg.sample_delay_s
  let V := mean s.1
  let I_calc := V / R
  let I_set := (env.iq qi).getD I_calc
  let lh := shift_limits row.I_nom row.lo_nom row.hi_nom I_set
  let d := _sample_readings (fun i => env.dut (dui + i))
    cfg.samples_per_point cfg.sample_delay_s
  let dut_m := mean d.1
  let passfail := if within dut_m lh.1 lh.2 then (r"PASS") else (r"FAIL")
  ( Event.prompt ::
      (dmmEvents s.2 ++
        Event.sourceI I_calc (|I_calc| * 1.2) :: Event.settle cfg.settle_s ::
        Event.sourceIQuery (env.iq qi) :: dutEvents d.2),
    { test := (r"PA_MEAS_I_LOW"), range_name := row.rng,
      set_value := row.I_nom, actual_set := I_set,
      dmm_mean := some V, dmm_stdev := some (stdevSq s.1),
      dut_mean := some dut_m, dut_stdev := some (stdevSq d.1),
      low := lh.1, high := lh.2, unit := (r"A"), pass_fail := passfail,
      r_key := some key, r_nom_ohm := some row.R_nom, r_act_ohm := some R } )

/-- The loop shared by both low-current procedures as it actually executes:
the first statement of the loop body, `key = _r_key_from_nominal(R_nom)`,
looks up a global name that is defined nowhere in the repository, so Python
raises `NameError` on the first iteration — before the prompt, the sampling
and the result construction of that row.  An empty row list skips the body
and completes normally. -/
def paLowLoop : List LowRow → ProcOut
  | [] => { events := [], results := [], err := none }
  | _ :: _ => { events := [], results := [], err := some Err.nameErrorRKey }

/-- Procedure `verify_remote_preamp_low_current_output`, generalized over the table
rows: prompt, meter configured for 20 V, output on, then the loop; on a
normal loop exit the DUT output is disabled. -/
def paLowOutProc (rows : List LowRow) (_env : Env) (cfg : ProcCfg)
    (_rmap : String → Option ℚ) : ProcOut :=
  let l := paLowLoop rows
  { events := Event.prompt :: Event.configDCV 20.0 cfg.nplc_3458 ::
      Event.outputOn ::
      (l.events ++ if l.err = none then [Event.outputOff] else []),
    results := l.results, err := l.err }

/-- Procedure `verify_remote_preamp_low_current_output` over its fixed table. -/
def verify_remote_preamp_low_current_output (env : Env) (cfg : ProcCfg)
    (rmap : String → Option ℚ) : ProcOut :=
  paLowOutProc TABLE_18_11_PREAMP_OUT_I_LOW env cfg rmap

/-- Procedure `verify_remote_preamp_low_current_measurement`, generalized over the
table rows: prompt, meter configured for 20 V, output on, sense function
CURR, then the loop; on a normal loop exit the DUT output is disabled. -/
def paLowMeasProc (rows : List LowRow) (_env : Env) (cfg : ProcCfg)
    (_rmap : String → Option ℚ) : ProcOut :=
  let l := paLowLoop rows
  { events := Event.prompt :: Event.configDCV 20.0 cfg.nplc_3458 ::
      Event.outputOn :: Event.senseFunc (r"CURR") ::
      (l.events ++ if l.err = none then [Event.outputOff] else []),
    results := l.results, err := l.err }

/-- Procedure `verify_remote_preamp_low_current_measurement` over its fixed table. -/
def verify_remote_preamp_low_current_measurement (env : Env) (cfg : ProcCfg)
    (rmap : String → Option ℚ) : ProcOut :=
  paLowMeasProc TABLE_18_13_PREAMP_MEAS_I_LOW env cfg rmap

/-! ## `procedures/safety.py` and `run_verification.py` -/

/-- Python function `safety.safe_shutdown(k, dmm, src)`: disable the 6430 output, put the
5720A in standby, then close the sessions 3458A, 5720A, 6430, in that order.
Every driver call sits in its own `try/except` whose failure is swallowed, so
each step is attempted regardless of earlier ones and nothing propagates past
the shutdown; the events record the attempted calls. -/
def safe_shutdown (hasK hasDmm hasSrc : Bool) : List Event :=
  Event.shutdownStart ::
    ((if hasK then [Event.outputOff] else []) ++
      (if hasSrc then [Event.srcStandby] else []) ++
      (if hasDmm then [Event.closeInst (r"3458A")] else []) ++
      (if hasSrc then [Event.closeInst (r"5720A")] else []) ++
      (if hasK then [Event.closeInst (r"6430")] else []) ++
      [Event.shutdownDone])

/-- How the body of `run_verification.main`'s `try` block ends: normally, by
an operator interrupt, or by a procedure-level error. -/
inductive PhaseOutcome
  | ok
  | interrupt
  | error (e : Err)
deriving DecidableEq, Repr

/-- How `main` itself ends, seen by its caller. -/
inductive Final
  | completed
  | interrupted
  | errored (e : Err)
deriving DecidableEq, Repr

/-- The `try/except/finally` of `run_verification.main` after the instruments
opened: `except KeyboardInterrupt` prints and does NOT re-raise, so after the
`finally` block the function returns normally; `except Exception ... raise`
re-raises after the `finally` block; and the `finally` block always runs
`safe_shutdown(k, dmm, src)`. -/
def mainModel (phase : List Event) (o : PhaseOutcome) (hasSrc : Bool) :
    List Event × Final :=
  match o with
  | PhaseOutcome.ok => (phase ++ safe_shutdown true true hasSrc, Final.completed)
  | PhaseOutcome.interrupt =>
      (phase ++ safe_shutdown true true hasSrc, Final.completed)
  | PhaseOutcome.error e =>
      (phase ++ safe_shutdown true true hasSrc, Final.errored e)

/-- Sequence two procedures: the second runs only when the first returned
normally; an error short-circuits (no procedure catches a predecessor's
fault). -/
def andThen (a b : ProcOut) : ProcOut :=
  match a.err with
  | some _ => a
  | none =>
    { events := a.events ++ b.events, results := a.results ++ b.results,
      err := b.err }

/-- The procedure sequence of `run_verification.main`'s `try` block:
`results += verify_*(...)` in source order, each procedure starting its read
streams afresh. -/
def runProcedures (env : Env) (cfg : ProcCfg) (hasSrc : Bool)
    (rmap : String → Option ℚ) : ProcOut :=
  andThen (verify_mainframe_output_voltage env cfg)
    (andThen (verify_mainframe_measure_voltage env cfg hasSrc)
      (andThen (verify_mainframe_output_current env cfg)
        (andThen (verify_mainframe_measure_current env cfg)
          (andThen (verify_remote_preamp_low_current_output env cfg rmap)
            (verify_remote_preamp_low_current_measurement env cfg rmap)))))

/-- Python function `run_verification.main` (instruments opened, no operator interrupt): run
the procedure sequence, then the `finally` shutdown; re-raise a procedure
fault. -/
def main (env : Env) (cfg : ProcCfg) (hasSrc : Bool)
    (rmap : String → Option ℚ) : List Event × Final :=
  let p := runProcedures env cfg hasSrc rmap
  mainModel p.events
    (match p.err with
      | some e => PhaseOutcome.error e
      | none => PhaseOutcome.ok) hasSrc

/-- The output on/off commands sent to the DUT, in order. -/
def outputSwitches (es : List Event) : List Bool :=
  es.filterMap fun e =>
    match e with
    | Event.outputOn => some true
    | Event.outputOff => some false
    | _ => none

/-- The last output on/off command sent to the DUT, if any. -/
def lastOutputSwitch (es : List Event) : Option Bool :=
  (outputSwitches es).getLast?

/-- A constant-zero read stream, for concrete instances. -/
def zeroReads : ℕ → ℚ := fun _ => 0

/-- A concrete environment: every reading is 0, every setpoint query raises. -/
def testEnv : Env :=
  { dmm := zeroReads, dut := zeroReads, iq := fun _ => none }

/-- A concrete configuration: one sample per point, no delays. -/
def testCfg : ProcCfg :=
  { settle_s := 0, nplc_3458 := 0, samples_per_point := 1,
    sample_delay_s := 0, use_5720a_as_voltage_source := false }

/-- A concrete all-zero limit row. -/
def testRow : LimitRow :=
  { range_name := (r"X"), set_value := 0, low := 0, high := 0, unit := (r"V") }

/-- An empty characterized-resistor map. -/
def emptyRmap : String → Option ℚ := fun _ => none

/-- A constant read stream returning 2. -/
def twoReads : ℕ → ℚ := fun _ => 2

/-- A concrete environment whose meter reads 2 V and whose setpoint query
raises. -/
def testEnv2 : Env :=
  { dmm := twoReads, dut := twoReads, iq := fun _ => none }

/-- A concrete low-current row with unit reference resistor and unit nominal
current, so that a 2 V reading derives a current different from the nominal. -/
def testLowRow : LowRow :=
  { rng := (r"X"), R_nom := 1, I_nom := 1, lo_nom := 0, hi_nom := 2 }

end Metrology

namespace Metrology

/-! ## Auxiliary facts about sums and the standard deviation -/

theorem sum_eq_zero_iff_of_nonneg (l : List ℚ) (h : ∀ x ∈ l, 0 ≤ x) :
    l.sum = 0 ↔ ∀ x ∈ l, x = 0 := by
  induction l with
  | nil => simp
  | cons a t ih =>
    have ha : 0 ≤ a := h a (List.mem_cons_self a t)
    have ht : ∀ x ∈ t, 0 ≤ x := fun x hx => h x (List.mem_cons_of_mem a hx)
    have hts : 0 ≤ t.sum := List.sum_nonneg ht
    simp only [List.sum_cons, List.mem_cons]
    constructor
    · intro hsum
      have ha0 : a = 0 := le_antisymm (by linarith) ha
      have hts0 : t.sum = 0 := by linarith
      intro x hx
      rcases hx with rfl | hx
      · exact ha0
      · exact ((ih ht).mp hts0) x hx
    · intro hall
      have ha0 : a = 0 := hall a (Or.inl rfl)
      have hts0 : t.sum = 0 := (ih ht).mpr (fun x hx => hall x (Or.inr hx))
      rw [ha0, hts0, add_zero]

theorem sum_of_constant (l : List ℚ) (a : ℚ) (h : ∀ x ∈ l, x = a) :
    l.sum = l.length * a := by
  induction l with
  | nil => simp
  | cons b t ih =>
    have hb : b = a := h b (List.mem_cons_self b t)
    have ht : ∀ x ∈ t, x = a := fun x hx => h x (List.mem_cons_of_mem b hx)
    simp only [List.sum_cons, List.length_cons]
    rw [hb, ih ht]
    push_cast
    ring

theorem mean_of_constant (l : List ℚ) (a : ℚ) (hne : l ≠ []) (h : ∀ x ∈ l, x = a) :
    mean l = a := by
  have hpos : 0 < l.length := List.length_pos.mpr hne
  have hlen : (l.length : ℚ) ≠ 0 := by
    exact_mod_cast Nat.pos_iff_ne_zero.mp hpos
  rw [mean, sum_of_constant l a h]
  field_simp

theorem stdevSq_nonneg (xs : List ℚ) : 0 ≤ stdevSq xs := by
  rw [stdevSq]
  split
  · exact le_refl 0
  · next hnl =>
    apply div_nonneg
    · apply List.sum_nonneg
      intro z hz
      simp only [List.mem_map] at hz
      obtain ⟨x, _, rfl⟩ := hz
      positivity
    · have h2 : (2 : ℚ) ≤ (xs.length : ℚ) := by exact_mod_cast Nat.le_of_not_lt hnl
      linarith

theorem stdevSq_eq_zero_iff (xs : List ℚ) (h : 2 ≤ xs.length) :
    stdevSq xs = 0 ↔ ∀ x ∈ xs, ∀ y ∈ xs, x = y := by
  have hne : xs ≠ [] := by
    cases xs with
    | nil => simp at h
    | cons a t => simp
  have hnl : ¬ xs.length < 2 := Nat.not_lt.mpr h
  have hden : ((xs.length : ℚ) - 1) ≠ 0 := by
    have h2 : (2 : ℚ) ≤ (xs.length : ℚ) := by exact_mod_cast h
    intro habs
    linarith
  have hsq : ∀ z ∈ xs.map (fun x => (x - mean xs) ^ 2), 0 ≤ z := by
    intro z hz
    simp only [List.mem_map] at hz
    obtain ⟨x, _, rfl⟩ := hz
    positivity
  rw [stdevSq, if_neg hnl, div_eq_zero_iff]
  constructor
  · rintro (hnum | hden0)
    · intro x hx y hy
      have hall : ∀ z ∈ xs, z = mean xs := by
        intro z hz
        have hz2 : (z - mean xs) ^ 2 = 0 :=
          (sum_eq_zero_iff_of_nonneg _ hsq).mp hnum ((z - mean xs) ^ 2)
            (List.mem_map_of_mem _ hz)
        have hz0 : z - mean xs = 0 := by
          exact sq_eq_zero_iff.mp hz2
        linarith
      rw [hall x hx, hall y hy]
    · exact absurd hden0 hden
  · intro hall
    left
    obtain ⟨a, t, rfl⟩ : ∃ a t, xs = a :: t := by
      cases xs with
      | nil => exact absurd rfl hne
      | cons a t => exact ⟨a, t, rfl⟩
    have hconst : ∀ x ∈ a :: t, x = a :=
      fun x hx => hall x hx a (List.mem_cons_self a t)
    have hmean : mean (a :: t) = a := mean_of_constant _ a (by simp) hconst
    apply (sum_eq_zero_iff_of_nonneg _ hsq).mpr
    intro z hz
    simp only [List.mem_map] at hz
    obtain ⟨x, hx, rfl⟩ := hz
    rw [hconst x hx, hmean]
    ring

/-! ## Auxiliary facts about verdicts and traces -/

theorem passfail_iff (b : Bool) :
    ((if b then (r"PASS") else (r"FAIL")) = (r"PASS")) ↔ b = true := by
  cases b <;> simp

theorem mem_dmmEvents (e : Event) (sev : List SampleEv) (he : e ∈ dmmEvents sev) :
    (∃ x, e = Event.dmmRead x) ∨ (∃ d, e = Event.sampleSleep d) := by
  simp only [dmmEvents, List.mem_map] at he
  obtain ⟨a, _, rfl⟩ := he
  cases a with
  | read v => exact Or.inl ⟨v, rfl⟩
  | sleep d => exact Or.inr ⟨d, rfl⟩

theorem mem_dutEvents (e : Event) (sev : List SampleEv) (he : e ∈ dutEvents sev) :
    (∃ x, e = Event.dutRead x) ∨ (∃ d, e = Event.sampleSleep d) := by
  simp only [dutEvents, List.mem_map] at he
  obtain ⟨a, _, rfl⟩ := he
  cases a with
  | read v => exact Or.inl ⟨v, rfl⟩
  | sleep d => exact Or.inr ⟨d, rfl⟩

theorem lastOutputSwitch_append_off (es : List Event) :
    lastOutputSwitch (es ++ [Event.outputOff]) = some false := by
  rw [lastOutputSwitch, outputSwitches, List.filterMap_append]
  have h1 : List.filterMap
      (fun e =>
        match e with
        | Event.outputOn => some true
        | Event.outputOff => some false
        | _ => none) [Event.outputOff] = [false] := rfl
  rw [h1, List.getLast?_concat]

theorem mfOutVRow_sourceV (env : Env) (cfg : ProcCfg) (row : LimitRow)
    (di : ℕ) (v rng : ℚ)
    (he : Event.sourceV v rng ∈ (mfOutVRow env cfg row di).1) :
    v = row.set_value ∧ rng = (if v < 200 then v * 1.2 else 200) := by
  simp only [mfOutVRow, List.mem_cons] at he
  rcases he with h | h | h | h
  · simp at h
  · rw [Event.sourceV.injEq] at h
    obtain ⟨rfl, rfl⟩ := h
    exact ⟨rfl, rfl⟩
  · simp at h
  · rcases mem_dmmEvents _ _ h with ⟨x, hx⟩ | ⟨d, hd⟩
    · simp at hx
    · simp at hd

theorem mfOutVLoop_sourceV (env : Env) (cfg : ProcCfg) :
    ∀ (rows : List LimitRow) (di : ℕ) (v rng : ℚ),
      Event.sourceV v rng ∈ (mfOutVLoop env cfg rows di).1 →
      rng = (if v < 200 then v * 1.2 else 200) := by
  intro rows
  induction rows with
  | nil =>
    intro di v rng he
    simp [mfOutVLoop] at he
  | cons row rows ih =>
    intro di v rng he
    simp only [mfOutVLoop, List.mem_append] at he
    rcases he with he | he
    · exact (mfOutVRow_sourceV env cfg row di v rng he).2
    · exact ih _ v rng he

theorem mfMeasVRow_sourceV (env : Env) (cfg : ProcCfg) (useSrc : Bool)
    (row : LimitRow) (di dui : ℕ) (v rng : ℚ)
    (he : Event.sourceV v rng ∈ (mfMeasVRow env cfg useSrc row di dui).1) :
    v = row.set_value ∧ rng = (if v < 200 then v * 1.2 else 200) := by
  simp only [mfMeasVRow] at he
  cases useSrc with
  | true =>
    simp only [if_pos] at he
    simp only [List.mem_cons, List.mem_append] at he
    rcases he with h | h | h | h
    · simp at h
    · simp at h
    · rcases mem_dmmEvents _ _ h with ⟨x, hx⟩ | ⟨d, hd⟩
      · simp at hx
      · simp at hd
    · rcases h with h | h
      · simp at h
      · rcases mem_dutEvents _ _ h with ⟨x, hx⟩ | ⟨d, hd⟩
        · simp at hx
        · simp at hd
  | false =>
    simp only [Bool.false_eq_true, if_neg, not_false_eq_true] at he
    simp only [List.mem_cons, List.mem_append] at he
    rcases he with h | h | h | h
    · rw [Event.sourceV.injEq] at h
      obtain ⟨rfl, rfl⟩ := h
      exact ⟨rfl, rfl⟩
    · simp at h
    · simp at h
    · rcases h with h | h
      · rcases mem_dmmEvents _ _ h with ⟨x, hx⟩ | ⟨d, hd⟩
        · simp at hx
        · simp at hd
      · rcases mem_dutEvents _ _ h with ⟨x, hx⟩ | ⟨d, hd⟩
        · simp at hx
        · simp at hd

theorem mfMeasVLoop_sourceV (env : Env) (cfg : ProcCfg) (useSrc : Bool) :
    ∀ (rows : List LimitRow) (di dui : ℕ) (v rng : ℚ),
      Event.sourceV v rng ∈ (mfMeasVLoop env cfg useSrc rows di dui).1 →
      rng = (if v < 200 then v * 1.2 else 200) := by
  intro rows
  induction rows with
  | nil =>
    intro di dui v rng he
    simp [mfMeasVLoop] at he
  | cons row rows ih =>
    intro di dui v rng he
    simp only [mfMeasVLoop, List.mem_append] at he
    rcases he with he | he
    · exact (mfMeasVRow_sourceV env cfg useSrc row di dui v rng he).2
    · exact ih _ _ v rng he

theorem paLowOutRow_sourceI (env : Env) (cfg : ProcCfg)
    (rmap : String → Option ℚ) (row : LowRow) (di qi : ℕ) (v rng : ℚ)
    (he : Event.sourceI v rng ∈ (paLowOutRow env cfg rmap row di qi).1) :
    v = row.I_nom ∧ rng = |row.I_nom| * 1.2 := by
  simp only [paLowOutRow, List.mem_cons, List.mem_append] at he
  rcases he with h | h | h | h
  · simp at h
  · rw [Event.sourceI.injEq] at h
    obtain ⟨rfl, rfl⟩ := h
    exact ⟨rfl, rfl⟩
  · simp at h
  · rcases h with h | h
    · rcases mem_dmmEvents _ _ h with ⟨x, hx⟩ | ⟨d, hd⟩
      · simp at hx
      · simp at hd
    · simp at h

theorem paLowMeasRow_sourceI (env : Env) (cfg : ProcCfg)
    (rmap : String → Option ℚ) (row : LowRow) (di dui qi : ℕ) (v rng : ℚ)
    (he : Event.sourceI v rng ∈ (paLowMeasRow env cfg rmap row di dui qi).1) :
    v = mean (_sample_readings (fun i => env.dmm (di + i))
        cfg.samples_per_point cfg.sample_delay_s).1 /
      ((rmap (_r_key_from_nominal row.R_nom)).getD row.R_nom) ∧
    rng = |v| * 1.2 := by
  simp only [paLowMeasRow, List.mem_cons, List.mem_append] at he
  rcases he with h | h
  · simp at h
  · rcases h with h | h
    · rcases mem_dmmEvents _ _ h with ⟨x, hx⟩ | ⟨d, hd⟩
      · simp at hx
      · simp at hd
    · rcases h with h | h | h | h
      · rw [Event.sourceI.injEq] at h
        obtain ⟨rfl, rfl⟩ := h
        exact ⟨rfl, rfl⟩
      · simp at h
      · simp at h
      · rcases mem_dutEvents _ _ h with ⟨x, hx⟩ | ⟨d, hd⟩
        · simp at hx
        · simp at hd

/-! ## Claims about the pure helpers -/

/-- C1. `shift_limits(nominal, low, high, actual)` returns exactly
`(actual - (nominal - low), actual + (high - nominal))`, and in particular
`shift_limits(20.0, 19.9936, 20.0064, 20.0010) = (19.9946, 20.0074)`. -/
theorem C1_shift_limits_exact :
    (∀ nominal low high actual : ℚ,
      shift_limits nominal low high actual =
        (actual - (nominal - low), actual + (high - nominal)))
    ∧ shift_limits 20.0 19.9936 20.0064 20.0010 = (19.9946, 20.0074) := by
  constructor
  · intro nominal low high actual
    rfl
  · simp only [shift_limits]
    norm_num

/-- C2. The pair returned by `shift_limits` preserves the span
(`high' - low' = high - low`) and `shift_limits` is the identity when the
actual value equals the nominal. -/
theorem C2_shift_limits_span_and_identity :
    (∀ nominal low high actual : ℚ,
      (shift_limits nominal low high actual).2 -
        (shift_limits nominal low high actual).1 = high - low)
    ∧ (∀ nominal low high : ℚ,
      shift_limits nominal low high nominal = (low, high)) := by
  constructor
  · intro nominal low high actual
    simp only [shift_limits]
    ring
  · intro nominal low high
    simp only [shift_limits, Prod.mk.injEq]
    constructor <;> ring

/-- C6. For every sample list of length ≥ 2, `stdev` is non-negative and
vanishes exactly when all samples are equal; for length < 2 it is exactly 0. -/
theorem C6_stdev_sign :
    (∀ xs : List ℚ, 2 ≤ xs.length →
      0 ≤ stdev xs ∧ (stdev xs = 0 ↔ ∀ x ∈ xs, ∀ y ∈ xs, x = y))
    ∧ (∀ xs : List ℚ, xs.length < 2 → stdev xs = 0) := by
  constructor
  · intro xs h
    have hnl : ¬ xs.length < 2 := Nat.not_lt.mpr h
    constructor
    · rw [stdev, if_neg hnl]
      exact Real.sqrt_nonneg _
    · rw [stdev, if_neg hnl, Real.sqrt_eq_zero', ← stdevSq_eq_zero_iff xs h]
      constructor
      · intro hle
        have h0 : (0 : ℝ) ≤ ((stdevSq xs : ℚ) : ℝ) := by
          exact_mod_cast stdevSq_nonneg xs
        have hz : ((stdevSq xs : ℚ) : ℝ) = 0 := le_antisymm hle h0
        exact_mod_cast hz
      · intro h2
        rw [h2]
        norm_num
  · intro xs h
    rw [stdev, if_pos h]

/-- Concrete instances of `C6_stdev_sign` with the hypotheses discharged:
a two-sample series and a one-sample series. -/
theorem C6_stdev_sign_witness :
    (0 ≤ stdev [3, 4] ∧
      (stdev [3, 4] = 0 ↔ ∀ x ∈ ([3, 4] : List ℚ), ∀ y ∈ ([3, 4] : List ℚ), x = y))
    ∧ stdev [5] = 0 :=
  ⟨C6_stdev_sign.1 [3, 4] (by decide), C6_stdev_sign.2 [5] (by decide)⟩

/-- C3. `within x lo hi` holds iff `lo ≤ x ≤ hi`, both endpoints included,
and in every procedure row the verdict is PASS iff the row's comparison value
lies in the shifted interval `[low, high]`: the sampled reference mean
(`actual_set`) for output-voltage rows, the DUT mean (`dut_mean`) for
measure-voltage and low-current-measurement rows, and the derived current
(`dmm_mean`) for low-current-output rows. -/
theorem C3_within_and_verdicts :
    (∀ x lo hi : ℚ, within x lo hi = true ↔ lo ≤ x ∧ x ≤ hi)
    ∧ (∀ env cfg row di,
        ((mfOutVRow env cfg row di).2.pass_fail = (r"PASS") ↔
          within (mfOutVRow env cfg row di).2.actual_set
            (mfOutVRow env cfg row di).2.low
            (mfOutVRow env cfg row di).2.high = true))
    ∧ (∀ env cfg useSrc row di dui,
        ((mfMeasVRow env cfg useSrc row di dui).2.pass_fail = (r"PASS") ↔
          within ((mfMeasVRow env cfg useSrc row di dui).2.dut_mean.getD 0)
            (mfMeasVRow env cfg useSrc row di dui).2.low
            (mfMeasVRow env cfg useSrc row di dui).2.high = true))
    ∧ (∀ env cfg rmap row di qi,
        ((paLowOutRow env cfg rmap row di qi).2.pass_fail = (r"PASS") ↔
          within ((paLowOutRow env cfg rmap row di qi).2.dmm_mean.getD 0)
            (paLowOutRow env cfg rmap row di qi).2.low
            (paLowOutRow env cfg rmap row di qi).2.high = true))
    ∧ (∀ env cfg rmap row di dui qi,
        ((paLowMeasRow env cfg rmap row di dui qi).2.pass_fail = (r"PASS") ↔
          within ((paLowMeasRow env cfg rmap row di dui qi).2.dut_mean.getD 0)
            (paLowMeasRow env cfg rmap row di dui qi).2.low
            (paLowMeasRow env cfg rmap row di dui qi).2.high = true)) := by
  refine ⟨?_, ?_, ?_, ?_, ?_⟩
  · intro x lo hi
    simp [within]
  · intro env cfg row di
    exact passfail_iff _
  · intro env cfg useSrc row di dui
    exact passfail_iff _
  · intro env cfg rmap row di qi
    exact passfail_iff _
  · intro env cfg rmap row di dui qi
    exact passfail_iff _

/-- C5 counterexample. With two samples and delay 1, the sampler's trace is
read, sleep, read, sleep: it sleeps *after the final sample*, so it differs
from the trace claimed by the spec (reads separated by sleeps, none at the
end). -/
theorem C5_counterexample :
    (_sample_readings zeroReads 2 1).2 ≠ sampleSpecTrace zeroReads 2 1 ∧
    (_sample_readings zeroReads 2 1).2 =
      [SampleEv.read 0, SampleEv.sleep 1, SampleEv.read 0, SampleEv.sleep 1] := by
  constructor
  · intro h
    have h4 : ((_sample_readings zeroReads 2 1).2).length = 4 := rfl
    have h3 : (sampleSpecTrace zeroReads 2 1).length = 3 := rfl
    rw [h, h3] at h4
    exact absurd h4 (by decide)
  · rfl

/-- C5 amended. The sampler invokes the read function exactly `count` times,
never waits before the first sample, returns the readings in acquisition
order — and waits `delay` seconds after *every* invocation, including the
final one (not only between successive invocations). -/
theorem C5_sampler_amended (read_fn : ℕ → ℚ) (n : ℕ) (delay_s : ℚ) :
    (_sample_readings read_fn n delay_s).1 = (List.range n).map read_fn ∧
    (_sample_readings read_fn n delay_s).2 =
      List.flatten ((List.range n).map
        (fun i => [SampleEv.read (read_fn i), SampleEv.sleep delay_s])) := by
  induction n generalizing read_fn with
  | zero => exact ⟨rfl, rfl⟩
  | succ m ih =>
    have h := ih (fun i => read_fn (i + 1))
    constructor
    · show read_fn 0 :: (_sample_readings (fun i => read_fn (i + 1)) m delay_s).1
        = (List.range (m + 1)).map read_fn
      rw [h.1, List.range_succ_eq_map, List.map_cons, List.map_map]
      rfl
    · show SampleEv.read (read_fn 0) :: SampleEv.sleep delay_s ::
          (_sample_readings (fun i => read_fn (i + 1)) m delay_s).2
        = List.flatten ((List.range (m + 1)).map
            (fun i => [SampleEv.read (read_fn i), SampleEv.sleep delay_s]))
      rw [h.2, List.range_succ_eq_map, List.map_cons, List.map_map]
      rfl

/-- C7. In a row of the low-current output verification, the record's bounds
are the row's nominal limits shifted around `actual_set`, which is the DUT's
read-back setpoint (falling back to the row's nominal current when the query
raises), the recorded `dmm_mean` is the derived current
`I_calc = V_mean / R_actual`, and the verdict is PASS iff that derived
current — not the setpoint the limits are centred on — lies within the
shifted bounds. -/
theorem C7_low_current_output_verdict (env : Env) (cfg : ProcCfg)
    (rmap : String → Option ℚ) (row : LowRow) (di qi : ℕ) :
    (paLowOutRow env cfg rmap row di qi).2.actual_set =
      (env.iq qi).getD row.I_nom ∧
    (paLowOutRow env cfg rmap row di qi).2.dmm_mean =
      some (mean (_sample_readings (fun i => env.dmm (di + i))
          cfg.samples_per_point cfg.sample_delay_s).1 /
        ((rmap (_r_key_from_nominal row.R_nom)).getD row.R_nom)) ∧
    (paLowOutRow env cfg rmap row di qi).2.low =
      (shift_limits row.I_nom row.lo_nom row.hi_nom
        ((env.iq qi).getD row.I_nom)).1 ∧
    (paLowOutRow env cfg rmap row di qi).2.high =
      (shift_limits row.I_nom row.lo_nom row.hi_nom
        ((env.iq qi).getD row.I_nom)).2 ∧
    ((paLowOutRow env cfg rmap row di qi).2.pass_fail = (r"PASS") ↔
      within ((paLowOutRow env cfg rmap row di qi).2.dmm_mean.getD 0)
        (paLowOutRow env cfg rmap row di qi).2.low
        (paLowOutRow env cfg rmap row di qi).2.high = true) :=
  ⟨rfl, rfl, rfl, rfl, passfail_iff _⟩

/-- C8 counterexample. When the body of the run ends in an operator
interrupt, `main` completes normally — the `except KeyboardInterrupt` handler
prints a message and does not re-raise — so the claim that the top level
re-raises the interrupt after shutdown is false. -/
theorem C8_counterexample :
    (mainModel [] PhaseOutcome.interrupt true).2 = Final.completed ∧
    Final.completed ≠ Final.interrupted :=
  ⟨rfl, by decide⟩

/-- C8 amended. Procedure-level errors are not recovered: the top level
always runs the safe-shutdown sequence, after which an error is re-raised
and an operator interrupt is swallowed (the run then completes normally);
the final outcome of a full run reflects exactly the first procedure fault. -/
theorem C8_toplevel_amended :
    (∀ (phase : List Event) (o : PhaseOutcome) (hasSrc : Bool),
        (mainModel phase o hasSrc).1 = phase ++ safe_shutdown true true hasSrc)
    ∧ (∀ (phase : List Event) (hasSrc : Bool) (e : Err),
        (mainModel phase (PhaseOutcome.error e) hasSrc).2 = Final.errored e)
    ∧ (∀ (phase : List Event) (hasSrc : Bool),
        (mainModel phase PhaseOutcome.interrupt hasSrc).2 = Final.completed)
    ∧ (∀ (phase : List Event) (hasSrc : Bool),
        (mainModel phase PhaseOutcome.ok hasSrc).2 = Final.completed)
    ∧ (∀ (env : Env) (cfg : ProcCfg) (hasSrc : Bool)
        (rmap : String → Option ℚ),
        (main env cfg hasSrc rmap).2 =
          match (runProcedures env cfg hasSrc rmap).err with
          | some e => Final.errored e
          | none => Final.completed) := by
  refine ⟨?_, ?_, ?_, ?_, ?_⟩
  · intro phase o hasSrc
    cases o <;> rfl
  · intro phase hasSrc e
    rfl
  · intro phase hasSrc
    rfl
  · intro phase hasSrc
    rfl
  · intro env cfg hasSrc rmap
    simp only [main]
    cases h : (runProcedures env cfg hasSrc rmap).err <;> rfl

/-- C9 counterexample. A concrete run of one low-current *output* row: the
meter reads 2 V across the unit reference resistor, so the derived current
recorded as `dmm_mean` is 2 A, yet the only source-range command uses
`|I_nom| * 1.2 = 1.2`, which differs from `1.2 ×` the calculated current
(`|2| * 1.2 = 2.4`): this test sizes the range from the table nominal. -/
theorem C9_counterexample :
    (paLowOutRow testEnv2 testCfg emptyRmap testLowRow 0 0).1 =
      [Event.prompt, Event.sourceI 1 (|(1 : ℚ)| * 1.2), Event.settle 0,
        Event.dmmRead 2, Event.sampleSleep 0, Event.sourceIQuery none] ∧
    (paLowOutRow testEnv2 testCfg emptyRmap testLowRow 0 0).2.dmm_mean =
      some 2 ∧
    |(1 : ℚ)| * 1.2 ≠ |(2 : ℚ)| * 1.2 := by
  refine ⟨rfl, ?_, ?_⟩
  · show some (mean [(2 : ℚ)] /
        ((emptyRmap (_r_key_from_nominal testLowRow.R_nom)).getD
          testLowRow.R_nom)) = some 2
    norm_num [mean, emptyRmap, testLowRow, _r_key_from_nominal]
  · have h1 : |(1 : ℚ)| = 1 := abs_one
    have h2 : |(2 : ℚ)| = 2 := abs_of_pos (by norm_num)
    rw [h1, h2]
    norm_num

/-- C9 amended. Every voltage-sourcing command issued by the output-voltage
and measure-voltage procedures sets the DUT source range to `1.2 ×` the
nominal for nominals below 200 and to the fixed ceiling 200 above 200; in
the low-current *measurement* rows the current source range is `1.2 ×` the
magnitude of the calculated current `V/R`, while the low-current *output*
rows size it at `1.2 ×` the magnitude of the table nominal instead. -/
theorem C9_range_sizing_amended :
    (∀ (rows : List LimitRow) (env : Env) (cfg : ProcCfg) (v rng : ℚ),
        Event.sourceV v rng ∈ (mfOutVProc rows env cfg).events →
          (v < 200 → rng = v * 1.2) ∧ (200 < v → rng = 200))
    ∧ (∀ (rows : List LimitRow) (env : Env) (cfg : ProcCfg) (hasSrc : Bool)
        (v rng : ℚ),
        Event.sourceV v rng ∈ (mfMeasVProc rows env cfg hasSrc).events →
          (v < 200 → rng = v * 1.2) ∧ (200 < v → rng = 200))
    ∧ (∀ (env : Env) (cfg : ProcCfg) (rmap : String → Option ℚ)
        (row : LowRow) (di dui qi : ℕ) (v rng : ℚ),
        Event.sourceI v rng ∈ (paLowMeasRow env cfg rmap row di dui qi).1 →
          v = mean (_sample_readings (fun i => env.dmm (di + i))
              cfg.samples_per_point cfg.sample_delay_s).1 /
            ((rmap (_r_key_from_nominal row.R_nom)).getD row.R_nom) ∧
          rng = |v| * 1.2)
    ∧ (∀ (env : Env) (cfg : ProcCfg) (rmap : String → Option ℚ)
        (row : LowRow) (di qi : ℕ) (v rng : ℚ),
        Event.sourceI v rng ∈ (paLowOutRow env cfg rmap row di qi).1 →
          v = row.I_nom ∧ rng = |row.I_nom| * 1.2) := by
  have hif : ∀ v rng : ℚ, rng = (if v < 200 then v * 1.2 else 200) →
      (v < 200 → rng = v * 1.2) ∧ (200 < v → rng = 200) := by
    intro v rng h
    constructor
    · intro hv
      rw [h, if_pos hv]
    · intro hv
      rw [h, if_neg (by linarith)]
  refine ⟨?_, ?_, ?_, ?_⟩
  · intro rows env cfg v rng he
    refine hif v rng ?_
    simp only [mfOutVProc, List.mem_cons, List.mem_append] at he
    rcases he with h | h | h | h
    · simp at h
    · simp at h
    · exact mfOutVLoop_sourceV env cfg rows 0 v rng h
    · simp at h
  · intro rows env cfg hasSrc v rng he
    refine hif v rng ?_
    simp only [mfMeasVProc, List.mem_cons, List.mem_append] at he
    rcases he with h | h | (((h | h) | h) | h)
    · simp at h
    · simp at h
    · cases hs : (cfg.use_5720a_as_voltage_source && hasSrc) <;>
        rw [hs] at h <;> simp at h
    · exact mfMeasVLoop_sourceV env cfg _ rows 0 0 v rng h
    · cases hs : (cfg.use_5720a_as_voltage_source && hasSrc) <;>
        rw [hs] at h <;> simp at h
    · simp at h
  · intro env cfg rmap row di dui qi v rng he
    exact paLowMeasRow_sourceI env cfg rmap row di dui qi v rng he
  · intro env cfg rmap row di qi v rng he
    exact paLowOutRow_sourceI env cfg rmap row di qi v rng he

/-- Concrete instances of `C9_range_sizing_amended` with the membership
hypotheses discharged: the voltage-sourcing event of a one-row table run and
the current-sourcing events of one row of each low-current procedure. -/
theorem C9_range_sizing_amended_witness :
    (((0 : ℚ) < 200 →
        (if (0 : ℚ) < 200 then (0 : ℚ) * 1.2 else 200) = 0 * 1.2) ∧
      (200 < (0 : ℚ) →
        (if (0 : ℚ) < 200 then (0 : ℚ) * 1.2 else 200) = 200)) ∧
    (((0 : ℚ) < 200 →
        (if (0 : ℚ) < 200 then (0 : ℚ) * 1.2 else 200) = 0 * 1.2) ∧
      (200 < (0 : ℚ) →
        (if (0 : ℚ) < 200 then (0 : ℚ) * 1.2 else 200) = 200)) ∧
    ((mean [(2 : ℚ)] / ((emptyRmap (_r_key_from_nominal (1 : ℚ))).getD 1)
        = mean (_sample_readings (fun i => testEnv2.dmm (0 + i))
            testCfg.samples_per_point testCfg.sample_delay_s).1 /
          ((emptyRmap (_r_key_from_nominal testLowRow.R_nom)).getD
            testLowRow.R_nom)) ∧
      |mean [(2 : ℚ)] /
          ((emptyRmap (_r_key_from_nominal (1 : ℚ))).getD 1)| * 1.2
        = |mean [(2 : ℚ)] /
            ((emptyRmap (_r_key_from_nominal (1 : ℚ))).getD 1)| * 1.2) ∧
    ((1 : ℚ) = testLowRow.I_nom ∧
      |(1 : ℚ)| * 1.2 = |testLowRow.I_nom| * 1.2) :=
  ⟨C9_range_sizing_amended.1 [testRow] testEnv testCfg 0
      (if (0 : ℚ) < 200 then (0 : ℚ) * 1.2 else 200)
      (List.mem_cons_of_mem _ (List.mem_cons_of_mem _ (List.mem_append_left _
        (List.mem_cons_of_mem _ (List.mem_cons_self _ _))))),
    C9_range_sizing_amended.2.1 [testRow] testEnv testCfg false 0
      (if (0 : ℚ) < 200 then (0 : ℚ) * 1.2 else 200)
      (List.mem_cons_of_mem _ (List.mem_cons_of_mem _ (List.mem_append_left _
        (List.mem_cons_self _ _)))),
    C9_range_sizing_amended.2.2.1 testEnv2 testCfg emptyRmap testLowRow 0 0 0
      (mean [(2 : ℚ)] / ((emptyRmap (_r_key_from_nominal (1 : ℚ))).getD 1))
      (|mean [(2 : ℚ)] /
          ((emptyRmap (_r_key_from_nominal (1 : ℚ))).getD 1)| * 1.2)
      (List.mem_cons_of_mem _ (List.mem_append_right _
        (List.mem_cons_self _ _))),
    C9_range_sizing_amended.2.2.2 testEnv2 testCfg emptyRmap testLowRow 0 0 1
      (|(1 : ℚ)| * 1.2)
      (List.mem_cons_of_mem _ (List.mem_cons_self _ _))⟩

/-- C10. With their (non-empty) fixed tables, all four current procedures
raise an unbound-name fault before completing any table row, so none ever
returns a result list: the two mainframe current procedures reference the
loop variable `row` before the loop begins (failing right after the prompt,
for any table), and the two low-current procedures call the never-defined
`_r_key_from_nominal` on their first row. -/
theorem C10_unbound_name_errors :
    (∀ (env : Env) (cfg : ProcCfg), verify_mainframe_output_current env cfg =
      { events := [Event.prompt], results := [],
        err := some Err.unboundLocalRow })
    ∧ (∀ (env : Env) (cfg : ProcCfg), verify_mainframe_measure_current env cfg =
      { events := [Event.prompt], results := [],
        err := some Err.unboundLocalRow })
    ∧ (∀ (env : Env) (cfg : ProcCfg) (rmap : String → Option ℚ),
        (verify_remote_preamp_low_current_output env cfg rmap).err =
          some Err.nameErrorRKey ∧
        (verify_remote_preamp_low_current_output env cfg rmap).results = [])
    ∧ (∀ (env : Env) (cfg : ProcCfg) (rmap : String → Option ℚ),
        (verify_remote_preamp_low_current_measurement env cfg rmap).err =
          some Err.nameErrorRKey ∧
        (verify_remote_preamp_low_current_measurement env cfg rmap).results
          = []) :=
  ⟨fun _ _ => rfl, fun _ _ => rfl,
    fun _ _ _ => ⟨rfl, rfl⟩, fun _ _ _ => ⟨rfl, rfl⟩⟩

/-- C4. The DUT output is disabled at every procedure completion and at every
abort: each procedure that can return normally ends its trace with an
output-off command whatever the rows — the two mainframe current procedures
never return normally at all, making their completion clause vacuous — and
the top level's shutdown path issues an output-off command on every terminal
path (normal, interrupt or error). -/
theorem C4_output_disabled :
    (∀ (rows : List LimitRow) (env : Env) (cfg : ProcCfg),
        (mfOutVProc rows env cfg).err = none →
        lastOutputSwitch (mfOutVProc rows env cfg).events = some false)
    ∧ (∀ (rows : List LimitRow) (env : Env) (cfg : ProcCfg) (hasSrc : Bool),
        (mfMeasVProc rows env cfg hasSrc).err = none →
        lastOutputSwitch (mfMeasVProc rows env cfg hasSrc).events = some false)
    ∧ (∀ (env : Env) (cfg : ProcCfg),
        (verify_mainframe_output_current env cfg).err ≠ none)
    ∧ (∀ (env : Env) (cfg : ProcCfg),
        (verify_mainframe_measure_current env cfg).err ≠ none)
    ∧ (∀ (rows : List LowRow) (env : Env) (cfg : ProcCfg)
        (rmap : String → Option ℚ),
        (paLowOutProc rows env cfg rmap).err = none →
        lastOutputSwitch (paLowOutProc rows env cfg rmap).events = some false)
    ∧ (∀ (rows : List LowRow) (env : Env) (cfg : ProcCfg)
        (rmap : String → Option ℚ),
        (paLowMeasProc rows env cfg rmap).err = none →
        lastOutputSwitch (paLowMeasProc rows env cfg rmap).events = some false)
    ∧ (∀ (phase : List Event) (o : PhaseOutcome) (hasSrc : Bool),
        Event.outputOff ∈ (mainModel phase o hasSrc).1) := by
  refine ⟨?_, ?_, ?_, ?_, ?_, ?_, ?_⟩
  · intro rows env cfg _h
    exact lastOutputSwitch_append_off
      (Event.prompt :: Event.outputOn :: (mfOutVLoop env cfg rows 0).1)
  · intro rows env cfg hasSrc _h
    exact lastOutputSwitch_append_off
      (Event.prompt :: Event.outputOn ::
        (((if (cfg.use_5720a_as_voltage_source && hasSrc)
              then [Event.srcOperate] else []) ++
            (mfMeasVLoop env cfg (cfg.use_5720a_as_voltage_source && hasSrc)
              rows 0 0).1) ++
          (if (cfg.use_5720a_as_voltage_source && hasSrc)
            then [Event.srcStandby] else [])))
  · intro env cfg h
    exact Option.noConfusion h
  · intro env cfg h
    exact Option.noConfusion h
  · intro rows env cfg rmap h
    cases rows with
    | nil =>
      exact lastOutputSwitch_append_off
        (Event.prompt :: Event.configDCV 20.0 cfg.nplc_3458 ::
          Event.outputOn :: [])
    | cons r rs =>
      exact Option.noConfusion h
  · intro rows env cfg rmap h
    cases rows with
    | nil =>
      exact lastOutputSwitch_append_off
        (Event.prompt :: Event.configDCV 20.0 cfg.nplc_3458 ::
          Event.outputOn :: Event.senseFunc (r"CURR") :: [])
    | cons r rs =>
      exact Option.noConfusion h
  · intro phase o hasSrc
    cases o <;> simp [mainModel, safe_shutdown]

/-- Concrete instances of `C4_output_disabled` with the completion
hypotheses discharged: a one-row output-voltage run, a one-row
measure-voltage run and empty-table low-current runs all end with an
output-off command. -/
theorem C4_output_disabled_witness :
    lastOutputSwitch (mfOutVProc [testRow] testEnv testCfg).events
      = some false ∧
    lastOutputSwitch (mfMeasVProc [testRow] testEnv testCfg false).events
      = some false ∧
    lastOutputSwitch (paLowOutProc [] testEnv testCfg emptyRmap).events
      = some false ∧
    lastOutputSwitch (paLowMeasProc [] testEnv testCfg emptyRmap).events
      = some false :=
  ⟨C4_output_disabled.1 [testRow] testEnv testCfg rfl,
    C4_output_disabled.2.1 [testRow] testEnv testCfg false rfl,
    C4_output_disabled.2.2.2.2.1 [] testEnv testCfg emptyRmap rfl,
    C4_output_disabled.2.2.2.2.2.1 [] testEnv testCfg emptyRmap rfl⟩

end Metrology
